import Mathlib

/-!
Verification of the command-generator interpreter (Raycast CommandSpec
extension).  We shallowly embed the interpreter core: the JSON-like value
model, the Handlebars template interpolator as configured by the source
(no strict mode, default escaping), the operation handlers with their
sandbox contracts (argv-based shell, URL-scheme-checked HTTP, path-contained
file I/O), the CommandSpec validator, and the sequential step interpreter.
Side effects are modelled by event values: a handler returns the effect it
would perform; an `Except.error` result means the effect never happened,
mirroring the source where the throw precedes the I/O call.
-/

namespace CmdGen

/-- JSON-like runtime values, modelling the JavaScript values that flow
through configs and the execution context.  Missing object fields are
modelled by `Option` results of `getField` (JavaScript `undefined`),
kept distinct from `vNull` (JSON `null`). -/
inductive Value where
  | vNull : Value
  | vBool : Bool → Value
  | vNum : Int → Value
  | vStr : String → Value
  | vArr : List Value → Value
  | vObj : List (String × Value) → Value
  deriving Repr

namespace Value

/-- Field lookup on an object value; `none` models JavaScript `undefined`.
Association lists may shadow: the first binding wins, modelling the most
recent assignment. -/
def getField : Value → String → Option Value
  | .vObj fs, k => (fs.find? (fun p => p.1 == k)).map (·.2)
  | _, _ => none

/-- JavaScript truthiness: `null`, `false`, `0` and the empty string are
falsy; arrays and objects are always truthy. -/
def truthy : Value → Bool
  | .vNull => false
  | .vBool b => b
  | .vNum n => n != 0
  | .vStr s => !s.isEmpty
  | .vArr _ => true
  | .vObj _ => true

/-- Models the JavaScript test `typeof v === "object"`, which holds for
objects, arrays and `null`. -/
def isObjectType : Value → Bool
  | .vObj _ => true
  | .vArr _ => true
  | .vNull => true
  | _ => false

/-- Models `Array.isArray`. -/
def isArray : Value → Bool
  | .vArr _ => true
  | _ => false

def isStr : Value → Bool
  | .vStr _ => true
  | _ => false

end Value

/-- JavaScript stringification as performed by Handlebars when a mustache
resolves to a value: strings pass through, numbers print in decimal,
`null`/`undefined` print as the empty string (Handlebars coerces nullish
values to `""` before output), arrays join their stringified elements with
commas, plain objects print as `[object Object]`. -/
def renderValue : Value → String
  | .vNull => ""
  | .vBool b => if b then "true" else "false"
  | .vNum n => toString n
  | .vStr s => s
  | .vArr l => String.intercalate "," (renderList l)
  | .vObj _ => "[object Object]"
where
  renderList : List Value → List String
    | [] => []
    | v :: rest => renderValue v :: renderList rest

/-- Handlebars `escapeExpression`, applied to every ordinary mustache
output: escapes the HTML-significant characters. -/
def escapeChar (c : Char) : String :=
  if c = '&' then "&amp;"
  else if c = '<' then "&lt;"
  else if c = '>' then "&gt;"
  else if c = '"' then "&quot;"
  else if c = '\'' then "&#x27;"
  else if c = '`' then "&#x60;"
  else if c = '=' then "&#x3D;"
  else String.singleton c

def escapeHtml (s : String) : String :=
  String.join (s.data.map escapeChar)

/-- Models JavaScript `s.startsWith(pre)` (and Node `path` prefix tests):
the code units of `pre` are a prefix of those of `s`. -/
def strStartsWith (s pre : String) : Bool :=
  pre.data.isPrefixOf s.data

/-- Models `Array.prototype.join(sep)` / `path` segment joining. -/
def joinList (sep : String) : List String → String
  | [] => ""
  | [a] => a
  | a :: rest => a ++ sep ++ joinList sep rest

/-- Splits a character list at every occurrence of the separator, keeping
empty pieces, like `String.prototype.split` with a one-character
separator. -/
def splitOnChar (sep : Char) : List Char → List (List Char)
  | [] => [[]]
  | c :: rest =>
    let r := splitOnChar sep rest
    if c = sep then [] :: r
    else
      match r with
      | [] => [[c]]
      | w :: ws => (c :: w) :: ws

def isSpaceChar (c : Char) : Bool :=
  c = ' ' || c = '\t' || c = '\n' || c = '\r'

/-- Whitespace trimming at both ends, like `String.prototype.trim` on the
characters that occur here. -/
def trimChars (cs : List Char) : List Char :=
  ((cs.dropWhile isSpaceChar).reverse.dropWhile isSpaceChar).reverse

/-- Decimal parse of a nonempty digit string, like the array-index lookup
JavaScript performs for a numeric property name. -/
def digitsToNat? (cs : List Char) : Option Nat :=
  if !cs.isEmpty && cs.all Char.isDigit then
    some (cs.foldl (fun n c => n * 10 + (c.toNat - 48)) 0)
  else none

/-! ## Handlebars template model

The source interpolates with `Handlebars.compile(value)` followed by
`template(context)`, with no options: so missing-variable lookups render as
the empty string (strict mode is off), ordinary mustaches HTML-escape their
output, and a syntactically malformed template makes `compile`/render throw.
We model the mustache fragment the specs use: literal text and simple
dotted-path mustaches such as `\x7b\x7benv.TOKEN\x7d\x7d` or
`\x7b\x7bstoryIds.0\x7d\x7d` (block helpers, partials and triple-stash
forms are outside the model and are mapped to the parse-failure branch). -/

/-- One compiled template token: a literal character or a mustache holding
a context path (`[]` is the path of `this`, the whole context). -/
inductive Tok where
  | lit : Char → Tok
  | var : List String → Tok
  deriving Repr, DecidableEq

/-- Characters Handlebars accepts in a bare path segment. -/
def isIdentChar (c : Char) : Bool :=
  c.isAlphanum || c = '_' || c = '$'

/-- Validate the trimmed inside of a mustache as a simple dotted path. -/
def parsePath (inner : List Char) : Option (List String) :=
  let t := trimChars inner
  if String.mk t = "this" || String.mk t = "." then some []
  else
    let segs := splitOnChar '.' t
    if segs.all (fun s => !s.isEmpty && s.all isIdentChar) then
      some (segs.map String.mk)
    else none

/-- Scan forward to the closing braces of a mustache, returning the
characters before them and the remainder after them. -/
def takeUntilClose : List Char → Option (List Char × List Char)
  | [] => none
  | '}' :: '}' :: rest => some ([], rest)
  | c :: rest =>
    match takeUntilClose rest with
    | some (inner, rem) => some (c :: inner, rem)
    | none => none

/-- Compile a template character list into tokens; `none` models the
exception a malformed template raises inside `Handlebars.compile`.  The
fuel argument only bounds the recursion; every step consumes at least one
character, so the initial fuel of `length + 1` never runs out. -/
def parseToks : List Char → Nat → Option (List Tok)
  | _, 0 => none
  | [], _ + 1 => some []
  | '{' :: '{' :: rest, fuel + 1 =>
    match takeUntilClose rest with
    | none => none
    | some (inner, rem) =>
      match parsePath inner with
      | none => none
      | some path =>
        match parseToks rem fuel with
        | none => none
        | some toks => some (.var path :: toks)
  | c :: rest, fuel + 1 =>
    match parseToks rest fuel with
    | none => none
    | some toks => some (.lit c :: toks)

def parseTemplate (s : String) : Option (List Tok) :=
  parseToks s.data (s.data.length + 1)

/-- Handlebars path lookup: walk the dotted path into the context value;
numeric segments index arrays; any failure yields `none` (JavaScript
`undefined`). -/
def lookupPath : Value → List String → Option Value
  | root, [] => some root
  | root, seg :: rest =>
    match root with
    | .vObj _ =>
      match root.getField seg with
      | some v => lookupPath v rest
      | none => none
    | .vArr l =>
      match digitsToNat? seg.data with
      | some i =>
        match l.get? i with
        | some v => lookupPath v rest
        | none => none
      | none => none
    | _ => none

/-- Render one token against the context root value. -/
def renderTok (root : Value) : Tok → String
  | .lit c => String.singleton c
  | .var path =>
    match lookupPath root path with
    | some v => escapeHtml (renderValue v)
    | none => ""

def renderToks (root : Value) (toks : List Tok) : String :=
  String.join (toks.map (renderTok root))

/-- Detail text standing for the message of the exception thrown by
`Handlebars.compile` on a malformed template. -/
def parseErrorDetail : String := "Parse error"

/-- Embeds `interpolateTemplate` from command-library: compile the template
and apply it to the context, wrapping a compile failure into an
`InterpreterError` whose message starts with the source's fixed prefix. -/
def interpolateTemplate (template : String) (context : Value) : Except String String :=
  match parseTemplate template with
  | none => .error ("Template interpolation failed: " ++ parseErrorDetail)
  | some toks => .ok (renderToks context toks)

/-! Embeds `interpolateConfig` and its inner `interpolateValue` from
command-library: walk the config tree, expanding every string leaf as a
template against the context, mapping over arrays, rebuilding objects field
by field, and passing every other leaf through unchanged.  Any template
failure aborts the whole interpolation with the wrapped error, as the
source's try/catch does. -/
mutual

def interpolateValue (context : Value) : Value → Except String Value
  | .vStr s =>
    match parseTemplate s with
    | none => .error ("Template interpolation failed: " ++ parseErrorDetail)
    | some toks => .ok (.vStr (renderToks context toks))
  | .vArr l =>
    match interpolateList context l with
    | .error e => .error e
    | .ok l2 => .ok (.vArr l2)
  | .vObj fs =>
    match interpolateFields context fs with
    | .error e => .error e
    | .ok fs2 => .ok (.vObj fs2)
  | .vNull => .ok .vNull
  | .vBool b => .ok (.vBool b)
  | .vNum n => .ok (.vNum n)
  termination_by structural v => v

def interpolateList (context : Value) : List Value → Except String (List Value)
  | [] => .ok []
  | v :: rest =>
    match interpolateValue context v with
    | .error e => .error e
    | .ok w =>
      match interpolateList context rest with
      | .error e => .error e
      | .ok ws => .ok (w :: ws)
  termination_by structural l => l

def interpolateFields (context : Value) :
    List (String × Value) → Except String (List (String × Value))
  | [] => .ok []
  | (k, v) :: rest =>
    match interpolateValue context v with
    | .error e => .error e
    | .ok w =>
      match interpolateFields context rest with
      | .error e => .error e
      | .ok ws => .ok ((k, w) :: ws)
  termination_by structural l => l

end

def interpolateConfig (config : Value) (context : Value) : Except String Value :=
  interpolateValue context config

/-! ## Shell operation handler

Embeds the argv-based `executeShell` (spawn-based handler): a guard rejects
commands holding any dangerous shell metacharacter, the survivor is
tokenized by `shell-quote`, and the program is spawned directly from the
resulting argv with no `shell` option.  The returned `SpawnCall` is the one
process invocation the handler would perform; an `Except.error` result means
no process is ever spawned, matching the source where every throw happens
before `spawn` is called. -/

structure ShellConfig where
  command : String
  shellOpt : Option String := none
  timeout : Option Int := none
  deriving Repr, DecidableEq

/-- The source's `DANGEROUS_SHELL_CHARS` list. -/
def DANGEROUS_SHELL_CHARS : List Char :=
  ['|', '&', ';', '$', '>', '<', '`', '\\', '"', '\'', '\n']

def containsDangerousShellChars (command : String) : Bool :=
  DANGEROUS_SHELL_CHARS.any (fun c => command.data.contains c)

/-- A `shell-quote` parse entry: a plain word, or one of the non-string
entries the library produces (operator, glob or comment objects). -/
inductive SQToken where
  | str : String → SQToken
  | ctrl : String → SQToken
  deriving Repr, DecidableEq

/-- Models `shellQuote.parse` on guard-passing input (no quotes, escapes,
dollar signs or redirection/pipe/sequence operators remain): words split on
whitespace; words holding the remaining control characters — parentheses
(operators), glob characters and leading comment hashes — map to the
non-string entries the library returns for them. -/
def classifyWord (w : String) : SQToken :=
  if w.data.any (fun c => c = '(' || c = ')') then .ctrl w
  else if w.data.any (fun c => c = '*' || c = '?') then .ctrl w
  else if strStartsWith w "#" then .ctrl w
  else .str w

def shellQuoteParse (command : String) : List SQToken :=
  (((splitOnChar ' ' command.data).map String.mk).filter (fun w => !w.isEmpty)).map
    classifyWord

/-- The one process invocation a successful shell step performs.
`viaShell := false` records that the source calls `spawn(cmd, args,
{timeout})` with no `shell` option, so no shell interpreter is involved. -/
structure SpawnCall where
  cmd : String
  args : List String
  viaShell : Bool
  deriving Repr, DecidableEq

def argStrings : List SQToken → Except String (List String)
  | [] => .ok []
  | .str s :: rest =>
    match argStrings rest with
    | .error e => .error e
    | .ok ss => .ok (s :: ss)
  | .ctrl _ :: _ => .error "Invalid command argument."

def executeShell (config : ShellConfig) : Except String SpawnCall :=
  if containsDangerousShellChars config.command then
    .error "Command contains potentially dangerous shell metacharacters."
  else
    match shellQuoteParse config.command with
    | [] => .error "Invalid command."
    | .ctrl _ :: _ => .error "Invalid command."
    | .str cmd :: rest =>
      match argStrings rest with
      | .error e => .error e
      | .ok args => .ok ⟨cmd, args, false⟩

/-! ## HTTP operation handler

Embeds `executeHttpRequest` up to the point where the network request is
issued: `new URL(config.url)` is modelled by `parseURL`, which extracts the
scheme of a WHATWG-parsable URL string (for the special http/https schemes a
nonempty host is also required); parse failure or a non-http(s) scheme
raises before `fetch`, so an `Except.error` result means no request is ever
attempted and a `FetchCall` is the request the handler issues. -/

structure HttpRequestConfig where
  url : String
  method : String
  timeout : Option Int := none
  deriving Repr, DecidableEq

def splitAtColon : List Char → Option (List Char × List Char)
  | [] => none
  | ':' :: rest => some ([], rest)
  | c :: rest =>
    match splitAtColon rest with
    | some (a, b) => some (c :: a, b)
    | none => none

def isSchemeChar (c : Char) : Bool :=
  c.isAlphanum || c = '+' || c = '-' || c = '.'

/-- Returns the protocol (lowercased scheme plus colon) of a parsable URL
string, `none` when `new URL` would throw. -/
def parseURL (s : String) : Option String :=
  match splitAtColon s.data with
  | none => none
  | some (schemeChars, rest) =>
    match schemeChars with
    | [] => none
    | c0 :: cs =>
      if c0.isAlpha && cs.all isSchemeChar then
        let protocol := String.mk ((c0 :: cs).map Char.toLower) ++ ":"
        if protocol = "http:" || protocol = "https:" then
          let afterSlashes := rest.dropWhile (fun c => c = '/' || c = '\\')
          let host := afterSlashes.takeWhile
            (fun c => c ≠ '/' && c ≠ '?' && c ≠ '#' && c ≠ '\\')
          if host.isEmpty then none else some protocol
        else some protocol
      else none

/-- The one network request a successful http step issues. -/
structure FetchCall where
  url : String
  method : String
  deriving Repr, DecidableEq

def executeHttpRequest (config : HttpRequestConfig) : Except String FetchCall :=
  match parseURL config.url with
  | none => .error ("Invalid URL: " ++ config.url)
  | some protocol =>
    if protocol ≠ "http:" && protocol ≠ "https:" then
      .error ("Unsupported protocol: " ++ protocol ++
        ". Only HTTP and HTTPS are allowed.")
    else .ok ⟨config.url, config.method⟩

/-! ## File operation handlers

Embeds `validatePath`, `executeFileRead` and `executeFileWrite`.  POSIX
paths are modelled as segment lists; `path.resolve(supportPath, filePath)`
normalizes the join (or the absolute `filePath` alone), `path.relative`
produces the up-segment form, and the source's check rejects a relative
result that starts with `..` or is absolute.  File system effects are the
returned event list; an `Except.error` result performs none, matching the
source where `validatePath` throws before any `fs` call. -/

def splitPath (p : String) : List String :=
  ((splitOnChar '/' p.data).map String.mk).filter (fun s => !s.isEmpty)

def isAbsolutePath (p : String) : Bool := strStartsWith p "/"

/-- Normalize the segments of an absolute path: drop `.`, let `..` pop the
previous segment (or stay at the root). -/
def normSegs (segs : List String) : List String :=
  segs.foldl
    (fun acc seg =>
      if seg = "." then acc
      else if seg = ".." then acc.dropLast
      else acc ++ [seg]) []

def commonPrefixLen : List String → List String → Nat
  | a :: as, b :: bs => if a = b then commonPrefixLen as bs + 1 else 0
  | _, _ => 0

def relativeSegs (fromSegs toSegs : List String) : List String :=
  let k := commonPrefixLen fromSegs toSegs
  List.replicate (fromSegs.length - k) ".." ++ toSegs.drop k

/-- Models `path.relative` between two resolved absolute paths. -/
def pathRelative (fromSegs toSegs : List String) : String :=
  joinList "/" (relativeSegs fromSegs toSegs)

def joinSegs (segs : List String) : String :=
  "/" ++ joinList "/" segs

/-- Models `path.resolve(supportPath, filePath)` for an absolute
`supportPath`. -/
def resolveSegs (supportPath filePath : String) : List String :=
  if isAbsolutePath filePath then normSegs (splitPath filePath)
  else normSegs (splitPath supportPath ++ splitPath filePath)

def validatePath (supportPath filePath : String) : Except String String :=
  let root := normSegs (splitPath supportPath)
  let resolved := resolveSegs supportPath filePath
  let rel := pathRelative root resolved
  if strStartsWith rel ".." || isAbsolutePath rel then
    .error "File access is restricted to the extension support directory"
  else .ok (joinSegs resolved)

inductive FSEvent where
  | read : String → FSEvent
  | mkdir : String → FSEvent
  | write : String → String → FSEvent
  deriving Repr, DecidableEq

structure FileReadConfig where
  path : String
  encoding : Option String := none
  deriving Repr, DecidableEq

structure FileWriteConfig where
  path : String
  content : String
  encoding : Option String := none
  deriving Repr, DecidableEq

def dirnameOf (p : String) : String :=
  joinSegs ((splitPath p).dropLast)

def executeFileRead (supportPath : String) (config : FileReadConfig) :
    Except String (List FSEvent) :=
  match validatePath supportPath config.path with
  | .error e => .error e
  | .ok safePath => .ok [.read safePath]

def executeFileWrite (supportPath : String) (config : FileWriteConfig) :
    Except String (List FSEvent) :=
  match validatePath supportPath config.path with
  | .error e => .error e
  | .ok safePath => .ok [.mkdir (dirnameOf safePath), .write safePath config.content]

/-! ## CommandSpec validator

Embeds `validateCommandSpec` and `validateOperation` with their per-type
config checks.  A JavaScript guard of the form
`!x || typeof x !== "string"` passes exactly on truthy strings, and an
`includes` guard passes exactly on a string drawn from the closed list;
the helper checkers capture those two patterns. -/

/-- Passes iff the field is present and a truthy (nonempty) string. -/
def checkTruthyString : Option Value → Bool
  | some (.vStr s) => !s.isEmpty
  | _ => false

/-- Passes iff the field is a string contained in the closed list. -/
def checkStringIn (v : Option Value) (allowed : List String) : Bool :=
  match v with
  | some (.vStr s) => allowed.contains s
  | _ => false

/-- String coercion of a JavaScript template literal placeholder. -/
def jsTemplateStr : Option Value → String
  | none => "undefined"
  | some .vNull => "null"
  | some v => renderValue v

def validTypes : List String :=
  ["httpRequest", "shell", "transform", "fileRead", "fileWrite",
   "clipboard", "open", "showToast", "showHUD"]

def validateHttpRequestConfig (config : Value) (index : Nat) : Except String Unit :=
  if !checkTruthyString (config.getField "url") then
    .error s!"HTTP operation at index {index} requires a url string"
  else if !checkStringIn (config.getField "method")
      ["GET", "POST", "PUT", "DELETE", "PATCH"] then
    .error s!"HTTP operation at index {index} requires a valid method"
  else .ok ()

def validateShellConfig (config : Value) (index : Nat) : Except String Unit :=
  if !checkTruthyString (config.getField "command") then
    .error s!"Shell operation at index {index} requires a command string"
  else .ok ()

def validateTransformConfig (config : Value) (index : Nat) : Except String Unit :=
  if !checkTruthyString (config.getField "template") then
    .error s!"Transform operation at index {index} requires a template string"
  else .ok ()

def validateFileConfig (config : Value) (index : Nat) (type : String) :
    Except String Unit :=
  if !checkTruthyString (config.getField "path") then
    .error s!"{type} operation at index {index} requires a path string"
  else if type = "fileWrite" && (config.getField "content").isNone then
    .error s!"fileWrite operation at index {index} requires content"
  else .ok ()

def validateClipboardConfig (config : Value) (index : Nat) : Except String Unit :=
  if !checkStringIn (config.getField "action") ["copy", "read"] then
    .error s!"Clipboard operation at index {index} requires action: copy or read"
  else .ok ()

def validateOpenConfig (config : Value) (index : Nat) : Except String Unit :=
  if !checkTruthyString (config.getField "target") then
    .error s!"Open operation at index {index} requires a target string"
  else .ok ()

/-- The style guard fires only when `config.style` is truthy and not in the
closed list, mirroring `config.style && !includes(...)`. -/
def styleBad (config : Value) : Bool :=
  match config.getField "style" with
  | none => false
  | some st => st.truthy && !checkStringIn (some st) ["success", "failure", "animated"]

def validateToastConfig (config : Value) (index : Nat) : Except String Unit :=
  if !checkTruthyString (config.getField "title") then
    .error s!"ShowToast operation at index {index} requires a title string"
  else if styleBad config then
    .error s!"ShowToast operation at index {index} has invalid style"
  else .ok ()

def validateHUDConfig (config : Value) (index : Nat) : Except String Unit :=
  if !checkTruthyString (config.getField "title") then
    .error s!"ShowHUD operation at index {index} requires a title string"
  else .ok ()

def validateConfigFor (t : String) (config : Value) (index : Nat) :
    Except String Unit :=
  if t = "httpRequest" then validateHttpRequestConfig config index
  else if t = "shell" then validateShellConfig config index
  else if t = "transform" then validateTransformConfig config index
  else if t = "fileRead" || t = "fileWrite" then validateFileConfig config index t
  else if t = "clipboard" then validateClipboardConfig config index
  else if t = "open" then validateOpenConfig config index
  else if t = "showToast" then validateToastConfig config index
  else if t = "showHUD" then validateHUDConfig config index
  else .ok ()

def validateOperation (op : Value) (index : Nat) : Except String Unit :=
  let tv := op.getField "type"
  if !(op.truthy && op.isObjectType) then
    .error s!"Operation at index {index} must be an object"
  else if !checkStringIn tv validTypes then
    .error s!"Operation at index {index} has invalid type: {jsTemplateStr tv}"
  else
    match tv with
    | some (.vStr t) =>
      match op.getField "config" with
      | some cfg =>
        if !(cfg.truthy && cfg.isObjectType) then
          .error s!"Operation at index {index} must have a config object"
        else validateConfigFor t cfg index
      | none => .error s!"Operation at index {index} must have a config object"
    | _ => .error s!"Operation at index {index} has invalid type: {jsTemplateStr tv}"

def validateOperations : List Value → Nat → Except String Unit
  | [], _ => .ok ()
  | op :: rest, index =>
    match validateOperation op index with
    | .error e => .error e
    | .ok _ => validateOperations rest (index + 1)

def validateCommandSpec (spec : Value) : Except String Unit :=
  if !(spec.truthy && spec.isObjectType) then
    .error "CommandSpec must be an object"
  else if !checkTruthyString (spec.getField "id") then
    .error "CommandSpec.id must be a string"
  else if !checkTruthyString (spec.getField "title") then
    .error "CommandSpec.title must be a string"
  else if !checkTruthyString (spec.getField "description") then
    .error "CommandSpec.description must be a string"
  else if !checkStringIn (spec.getField "mode") ["list", "form", "detail", "view"] then
    .error "CommandSpec.mode must be one of: list, form, detail, view"
  else
    match spec.getField "steps" with
    | some (.vArr steps) =>
      match validateOperations steps 0 with
      | .error e => .error e
      | .ok _ =>
        match spec.getField "ui" with
        | some ui =>
          if !(ui.truthy && ui.isObjectType) then
            .error "CommandSpec.ui must be an object"
          else if !checkStringIn (ui.getField "mode") ["list", "form", "detail"] then
            .error "CommandSpec.ui.mode must be one of: list, form, detail"
          else if !checkTruthyString (ui.getField "dataSource") then
            .error "CommandSpec.ui.dataSource must be a string"
          else
            match spec.getField "metadata" with
            | some md =>
              if !(md.truthy && md.isObjectType) then
                .error "CommandSpec.metadata must be an object"
              else if !checkTruthyString (md.getField "created") then
                .error "CommandSpec.metadata.created must be an ISO timestamp string"
              else if !checkTruthyString (md.getField "modified") then
                .error "CommandSpec.metadata.modified must be an ISO timestamp string"
              else
                match md.getField "tags" with
                | some (.vArr _) => .ok ()
                | _ => .error "CommandSpec.metadata.tags must be an array"
            | none => .error "CommandSpec.metadata must be an object"
        | none => .error "CommandSpec.ui must be an object"
    | _ => .error "CommandSpec.steps must be an array"


/-- The required-key contract of one operation type's config, as the spec
states it: url plus closed-enum method for httpRequest, command for shell,
template for transform, path (plus content for writes) for the file
operations, a closed-enum action for clipboard, target for open, and a
title (with an optional closed-enum style) for the notifications. -/
def requiredConfigOk (t : String) (config : Value) : Bool :=
  if t = "httpRequest" then
    checkTruthyString (config.getField "url") &&
      checkStringIn (config.getField "method")
        ["GET", "POST", "PUT", "DELETE", "PATCH"]
  else if t = "shell" then checkTruthyString (config.getField "command")
  else if t = "transform" then checkTruthyString (config.getField "template")
  else if t = "fileRead" then checkTruthyString (config.getField "path")
  else if t = "fileWrite" then
    checkTruthyString (config.getField "path") &&
      (config.getField "content").isSome
  else if t = "clipboard" then
    checkStringIn (config.getField "action") ["copy", "read"]
  else if t = "open" then checkTruthyString (config.getField "target")
  else if t = "showToast" then
    checkTruthyString (config.getField "title") && !styleBad config
  else if t = "showHUD" then checkTruthyString (config.getField "title")
  else true

/-- Structural well-formedness of one step: an object carrying an
allowlisted type, a config object, and the type's required config keys. -/
def stepWellFormed (op : Value) : Bool :=
  op.truthy && op.isObjectType &&
    checkStringIn (op.getField "type") validTypes &&
    (match op.getField "config" with
     | some cfg => cfg.truthy && cfg.isObjectType
     | none => false) &&
    (match op.getField "type", op.getField "config" with
     | some (.vStr t), some cfg => requiredConfigOk t cfg
     | _, _ => false)

/-- Structural well-formedness of a candidate CommandSpec, as the spec
enumerates it: an object whose id, title and description are nonempty
strings, whose mode lies in the closed enum, whose steps form an array of
well-formed operations, and whose ui and metadata blocks carry their
required fields. -/
def specWellFormed (spec : Value) : Bool :=
  spec.truthy && spec.isObjectType &&
    checkTruthyString (spec.getField "id") &&
    checkTruthyString (spec.getField "title") &&
    checkTruthyString (spec.getField "description") &&
    checkStringIn (spec.getField "mode") ["list", "form", "detail", "view"] &&
    (match spec.getField "steps" with
     | some (.vArr steps) => steps.all stepWellFormed
     | _ => false) &&
    (match spec.getField "ui" with
     | some ui => ui.truthy && ui.isObjectType &&
         checkStringIn (ui.getField "mode") ["list", "form", "detail"] &&
         checkTruthyString (ui.getField "dataSource")
     | none => false) &&
    (match spec.getField "metadata" with
     | some md => md.truthy && md.isObjectType &&
         checkTruthyString (md.getField "created") &&
         checkTruthyString (md.getField "modified") &&
         (match md.getField "tags" with
          | some (.vArr _) => true
          | _ => false)
     | none => false)

/-- Relation between a config tree and its interpolation: string leaves
become the string output of template expansion, all other leaves are
unchanged, and arrays and objects keep their shape pointwise (objects also
keep their keys). -/
inductive InterpShape (context : Value) : Value → Value → Prop where
  | str : ∀ {s : String} {toks : List Tok}, parseTemplate s = some toks →
      InterpShape context (.vStr s) (.vStr (renderToks context toks))
  | nullv : InterpShape context .vNull .vNull
  | boolv : ∀ b, InterpShape context (.vBool b) (.vBool b)
  | numv : ∀ n, InterpShape context (.vNum n) (.vNum n)
  | arr : ∀ {l l' : List Value}, List.Forall₂ (InterpShape context) l l' →
      InterpShape context (.vArr l) (.vArr l')
  | obj : ∀ {fs fs' : List (String × Value)},
      fs.map Prod.fst = fs'.map Prod.fst →
      List.Forall₂ (InterpShape context) (fs.map Prod.snd) (fs'.map Prod.snd) →
      InterpShape context (.vObj fs) (.vObj fs')

/-! ## Interpreter

Embeds `executeCommandSpec` and `executeOperation`.  The nine operation
handlers interact with the outside world, so their behaviour is abstracted
by an oracle mapping a step type and its interpolated config to the result
the handler produces (or the error it throws).  The returned event list is
the sequence of handler dispatches the run performs, in order; a step with
no event was never executed. -/

structure Step where
  type : String
  config : Value
  outputVar : Option String

structure CommandSpecM where
  steps : List Step
  ui : Value
  actions : Option Value

abbrev Ctx := List (String × Value)

abbrev Oracle := String → Value → Except String Value

structure Event where
  index : Nat
  type : String
  config : Value

def opAllowlist : List String :=
  ["httpRequest", "shell", "transform", "fileRead", "fileWrite",
   "clipboard", "open", "showToast", "showHUD"]

/-- The `InterpreterError` message built in `executeCommandSpec`'s catch
block: it names the failing step's one-based index, the step type, and the
underlying error message. -/
def wrapMsg (i : Nat) (t : String) (m : String) : String :=
  s!"Operation {i + 1} ({t}) failed: {m}"

/-- Binding a step result into the execution context,
`context[step.outputVar] = result`: the new binding shadows any earlier
binding of the same name. -/
def ctxSet (ctx : Ctx) (k : String) (v : Value) : Ctx := (k, v) :: ctx

def ctxGet (ctx : Ctx) (k : String) : Option Value :=
  (ctx.find? (fun p => p.1 == k)).map (·.2)

def runSteps (oracle : Oracle) :
    List Step → Nat → Ctx → List Event × Except String Ctx
  | [], _, ctx => ([], .ok ctx)
  | s :: rest, i, ctx =>
    match interpolateConfig s.config (.vObj ctx) with
    | .error m => ([], .error (wrapMsg i s.type m))
    | .ok cfg =>
      if opAllowlist.contains s.type then
        match oracle s.type cfg with
        | .error m => ([⟨i, s.type, cfg⟩], .error (wrapMsg i s.type m))
        | .ok r =>
          let ctx2 := match s.outputVar with
            | some x => ctxSet ctx x r
            | none => ctx
          let res := runSteps oracle rest (i + 1) ctx2
          (⟨i, s.type, cfg⟩ :: res.1, res.2)
      else ([], .error (wrapMsg i s.type ("Unknown operation type: " ++ s.type)))

/-- The initial execution context: environment snapshot, form input values
and the two sandbox path variables. -/
def initCtx (env formValues : List (String × Value))
    (supportPath assetsPath : String) : Ctx :=
  [("env", .vObj env), ("input", .vObj formValues),
   ("supportPath", .vStr supportPath), ("assetsPath", .vStr assetsPath)]

structure ExecutionResult where
  data : Ctx
  uiBinding : Value
  actions : Option Value

def executeCommandSpec (oracle : Oracle) (spec : CommandSpecM)
    (formValues env : List (String × Value)) (supportPath assetsPath : String) :
    List Event × Except String ExecutionResult :=
  match runSteps oracle spec.steps 0 (initCtx env formValues supportPath assetsPath) with
  | (tr, .error e) => (tr, .error e)
  | (tr, .ok ctx) => (tr, .ok ⟨ctx, spec.ui, spec.actions⟩)

/-! ## Helper lemmas -/

theorem argStrings_ok : ∀ {toks : List SQToken} {ss : List String},
    argStrings toks = .ok ss → toks = ss.map SQToken.str := by
  intro toks
  induction toks with
  | nil =>
    intro ss h
    simp [argStrings] at h
    simp [← h]
  | cons t rest ih =>
    intro ss h
    cases t with
    | str s =>
      cases hrec : argStrings rest with
      | error e => simp [argStrings, hrec] at h
      | ok ss2 =>
        simp [argStrings, hrec] at h
        simp [← h, ih hrec]
    | ctrl s => simp [argStrings] at h

theorem commonPrefixLen_lt_of_not_prefixOf :
    ∀ {a : List String}, ∀ {b : List String},
      a.isPrefixOf b = false → commonPrefixLen a b < a.length := by
  intro a
  induction a with
  | nil => intro b h; simp [List.isPrefixOf] at h
  | cons x as ih =>
    intro b h
    cases b with
    | nil => simp [commonPrefixLen]
    | cons y bs =>
      by_cases hxy : x = y
      · subst hxy
        have hrest : as.isPrefixOf bs = false := by
          simpa [List.isPrefixOf] using h
        simpa [commonPrefixLen] using Nat.succ_lt_succ (ih hrest)
      · simp [commonPrefixLen, hxy]

theorem joinList_cons (sep a : String) (l : List String) :
    ∃ t, joinList sep (a :: l) = a ++ t := by
  cases l with
  | nil => exact ⟨"", by simp [joinList]⟩
  | cons b bs =>
    exact ⟨sep ++ joinList sep (b :: bs), by simp [joinList, String.append_assoc]⟩

theorem isPrefixOf_self_append : ∀ (l m : List Char), l.isPrefixOf (l ++ m) = true := by
  intro l m
  induction l with
  | nil => simp [List.isPrefixOf]
  | cons c cs ih => simp [List.isPrefixOf, ih]

theorem strStartsWith_append (p t : String) : strStartsWith (p ++ t) p = true := by
  cases p with
  | mk pd =>
    cases t with
    | mk td =>
      show pd.isPrefixOf (pd ++ td) = true
      exact isPrefixOf_self_append pd td

theorem validatePath_escape {supportPath filePath : String}
    (h : (normSegs (splitPath supportPath)).isPrefixOf
        (resolveSegs supportPath filePath) = false) :
    validatePath supportPath filePath =
      .error "File access is restricted to the extension support directory" := by
  have hk := commonPrefixLen_lt_of_not_prefixOf h
  obtain ⟨m, hm⟩ : ∃ m, (normSegs (splitPath supportPath)).length -
      commonPrefixLen (normSegs (splitPath supportPath))
        (resolveSegs supportPath filePath) = m + 1 :=
    ⟨(normSegs (splitPath supportPath)).length -
      commonPrefixLen (normSegs (splitPath supportPath))
        (resolveSegs supportPath filePath) - 1, by omega⟩
  simp only [validatePath, pathRelative, relativeSegs]
  simp only [hm, List.replicate_succ]
  obtain ⟨t, ht⟩ := joinList_cons "/" ".."
    (List.replicate m ".." ++
      List.drop (commonPrefixLen (normSegs (splitPath supportPath))
        (resolveSegs supportPath filePath)) (resolveSegs supportPath filePath))
  simp only [List.cons_append] at ht ⊢
  simp only [ht, strStartsWith_append]
  simp

/-! ## Claim theorems: shell -/

/-- C1: a shell step never hands the command string to a shell interpreter.
A successful execution spawns exactly one program directly (`viaShell` is
false) with program name and argv taken from the `shell-quote` tokenization
of the command string, and any command containing the shell metacharacters
`;`, `|`, a backtick, or `$` (hence every `$()` substitution) is rejected
by the guard with an error, so it spawns nothing at all and can never cause
a second program to run. -/
theorem shell_argv_never_shell (config : ShellConfig) :
    (∀ sc, executeShell config = .ok sc →
        sc.viaShell = false ∧
        shellQuoteParse config.command = .str sc.cmd :: sc.args.map SQToken.str) ∧
    ((config.command.data.contains ';' || config.command.data.contains '|' ||
        config.command.data.contains '`' ||
        config.command.data.contains '$') = true →
      executeShell config =
        .error "Command contains potentially dangerous shell metacharacters.") := by
  constructor
  · intro sc h
    unfold executeShell at h
    split at h
    · simp at h
    · split at h
      · simp at h
      · simp at h
      · rename_i cmd rest heq
        split at h
        · simp at h
        · rename_i args hargs
          simp only [Except.ok.injEq] at h
          subst h
          exact ⟨rfl, by rw [heq, argStrings_ok hargs]⟩
  · intro hmeta
    have hg : containsDangerousShellChars config.command = true := by
      unfold containsDangerousShellChars
      rw [List.any_eq_true]
      simp only [Bool.or_eq_true] at hmeta
      rcases hmeta with ((h | h) | h) | h
      · exact ⟨';', by decide, h⟩
      · exact ⟨'|', by decide, h⟩
      · exact ⟨'`', by decide, h⟩
      · exact ⟨'$', by decide, h⟩
    unfold executeShell
    rw [hg]
    simp

/-- C1 witness: a clean command spawns one direct program invocation, and a
command carrying `;` is rejected by the guard before any spawn. -/
theorem shell_argv_never_shell_witness :
    ((⟨"ls", ["-la", "/tmp"], false⟩ : SpawnCall).viaShell = false ∧
      shellQuoteParse "ls -la /tmp" = .str "ls" :: (["-la", "/tmp"]).map SQToken.str) ∧
    executeShell ⟨"echo hi; rm -rf /tmp/x", none, none⟩ =
      .error "Command contains potentially dangerous shell metacharacters." :=
  ⟨(shell_argv_never_shell ⟨"ls -la /tmp", none, none⟩).1 ⟨"ls", ["-la", "/tmp"], false⟩ rfl,
   (shell_argv_never_shell ⟨"echo hi; rm -rf /tmp/x", none, none⟩).2 (by decide)⟩

/-- C9: the guard rejects, before any process is spawned, every command
containing any character of the dangerous list (pipe, ampersand, semicolon,
dollar, the redirections, backtick, backslash, double quote, single quote
or a newline); and it is strictly stricter than the tokenize-literally
contract: a legitimate command that merely quotes an argument — free of the
injection metacharacters `;`, `|`, backtick and `$` — is rejected too. -/
theorem shell_guard_rejects_dangerous :
    (∀ config : ShellConfig, ∀ c ∈ DANGEROUS_SHELL_CHARS,
        config.command.data.contains c = true →
        executeShell config =
          .error "Command contains potentially dangerous shell metacharacters.") ∧
    (∃ cmd : String,
        (cmd.data.contains ';' || cmd.data.contains '|' ||
         cmd.data.contains '`' || cmd.data.contains '$') = false ∧
        executeShell ⟨cmd, none, none⟩ =
          .error "Command contains potentially dangerous shell metacharacters.") := by
  constructor
  · intro config c hmem hc
    have hg : containsDangerousShellChars config.command = true := by
      unfold containsDangerousShellChars
      rw [List.any_eq_true]
      exact ⟨c, hmem, hc⟩
    unfold executeShell
    rw [hg]
    simp
  · refine ⟨"echo \"hello world\"", by decide, ?_⟩
    rfl

/-- C9 witness: a piped command is rejected by the guard. -/
theorem shell_guard_rejects_dangerous_witness :
    executeShell ⟨"cat notes.txt | grep x", none, none⟩ =
      .error "Command contains potentially dangerous shell metacharacters." :=
  shell_guard_rejects_dangerous.1 ⟨"cat notes.txt | grep x", none, none⟩ '|'
    (by decide) (by decide)

/-! ## Claim theorems: http -/

/-- C4: an http step issues a request only for a parsable http/https URL: a
URL that fails to parse raises the invalid-URL error, a parsable URL with
any other scheme (file, data, ...) raises the unsupported-protocol error —
in both cases no fetch happens — and every successful execution records the
one request, for a URL whose scheme parsed as http or https. -/
theorem http_requires_parsable_http_url (config : HttpRequestConfig) :
    (parseURL config.url = none →
      executeHttpRequest config = .error ("Invalid URL: " ++ config.url)) ∧
    (∀ p, parseURL config.url = some p → p ≠ "http:" → p ≠ "https:" →
      executeHttpRequest config =
        .error ("Unsupported protocol: " ++ p ++
          ". Only HTTP and HTTPS are allowed.")) ∧
    (∀ fc, executeHttpRequest config = .ok fc →
      fc = ⟨config.url, config.method⟩ ∧
      ∃ p, parseURL config.url = some p ∧ (p = "http:" ∨ p = "https:")) := by
  refine ⟨?_, ?_, ?_⟩
  · intro h
    unfold executeHttpRequest
    rw [h]
  · intro p hp h1 h2
    unfold executeHttpRequest
    rw [hp]
    simp [h1, h2]
  · intro fc h
    unfold executeHttpRequest at h
    cases hp : parseURL config.url with
    | none => rw [hp] at h; simp at h
    | some p =>
      rw [hp] at h
      dsimp only at h
      split at h
      · simp at h
      · rename_i hcond
        simp only [Except.ok.injEq] at h
        subst h
        refine ⟨rfl, p, rfl, ?_⟩
        by_cases h1 : p = "http:"
        · exact Or.inl h1
        · by_cases h2 : p = "https:"
          · exact Or.inr h2
          · exact absurd (by simp [h1, h2]) hcond

/-- C4 witness: a file-scheme URL is rejected with no request, and a https
URL yields the one recorded request. -/
theorem http_requires_parsable_http_url_witness :
    executeHttpRequest ⟨"file:///etc/passwd", "GET", none⟩ =
      .error "Unsupported protocol: file:. Only HTTP and HTTPS are allowed." ∧
    executeHttpRequest ⟨"nonsense", "GET", none⟩ = .error "Invalid URL: nonsense" :=
  ⟨(http_requires_parsable_http_url ⟨"file:///etc/passwd", "GET", none⟩).2.1
      "file:" (by decide) (by decide) (by decide),
   (http_requires_parsable_http_url ⟨"nonsense", "GET", none⟩).1 (by decide)⟩

/-! ## Claim theorems: file sandbox -/

/-- C3: a fileRead or fileWrite whose path resolves outside the sandbox
root (whether through `..` segments or an absolute-path override) fails
with the path-restriction error; the error result carries no file-system
events, so the target file is never read or written — the source throws in
`validatePath` before any `fs` call. -/
theorem file_ops_never_escape (supportPath filePath content : String)
    (enc1 enc2 : Option String)
    (h : (normSegs (splitPath supportPath)).isPrefixOf
        (resolveSegs supportPath filePath) = false) :
    executeFileRead supportPath ⟨filePath, enc1⟩ =
      .error "File access is restricted to the extension support directory" ∧
    executeFileWrite supportPath ⟨filePath, content, enc2⟩ =
      .error "File access is restricted to the extension support directory" := by
  have hv := validatePath_escape h
  constructor
  · unfold executeFileRead
    rw [hv]
  · unfold executeFileWrite
    rw [hv]

/-- C3 witness: both a dot-dot relative path and an absolute path outside
the root are rejected by read and write alike. -/
theorem file_ops_never_escape_witness :
    (executeFileRead "/support" ⟨"../etc/passwd", none⟩ =
        .error "File access is restricted to the extension support directory" ∧
      executeFileWrite "/support" ⟨"../etc/passwd", "x", none⟩ =
        .error "File access is restricted to the extension support directory") ∧
    (executeFileRead "/support" ⟨"/etc/passwd", none⟩ =
        .error "File access is restricted to the extension support directory" ∧
      executeFileWrite "/support" ⟨"/etc/passwd", "x", none⟩ =
        .error "File access is restricted to the extension support directory") :=
  ⟨file_ops_never_escape "/support" "../etc/passwd" "x" none none (by decide),
   file_ops_never_escape "/support" "/etc/passwd" "x" none none (by decide)⟩

/-! ## Claim theorems: interpolation of unbound variables -/

/-- C2 counterexample: interpolating the template `\x7b\x7bx\x7d\x7d`
against a context with no binding for `x` does not raise any error — it
succeeds and silently substitutes the empty string, contradicting the
claim that unbound references raise an InterpolationError. -/
theorem interpolate_unbound_silently_empty :
    interpolateTemplate "\x7b\x7bx\x7d\x7d" (.vObj []) = .ok "" := rfl

/-- C2 amended: a template that compiles always renders without error, each
unresolved placeholder producing the empty string (the Handlebars default,
since compile is called without strict mode); only a template that fails to
compile raises the wrapped InterpolationError. -/
theorem interpolate_unbound_empty_malformed_errors :
    (∀ s context toks, parseTemplate s = some toks →
        interpolateTemplate s context = .ok (renderToks context toks)) ∧
    (∀ context path, lookupPath context path = none →
        renderTok context (.var path) = "") ∧
    (∀ s context, parseTemplate s = none →
        interpolateTemplate s context =
          .error ("Template interpolation failed: " ++ parseErrorDetail)) := by
  refine ⟨?_, ?_, ?_⟩
  · intro s context toks h
    unfold interpolateTemplate
    rw [h]
  · intro context path h
    simp only [renderTok]
    rw [h]
  · intro s context h
    unfold interpolateTemplate
    rw [h]

/-- C2 amended witness: an unbound simple path renders as the empty string
and an unterminated mustache raises the wrapped error. -/
theorem interpolate_unbound_empty_malformed_errors_witness :
    (interpolateTemplate "\x7b\x7bx\x7d\x7d" (.vObj []) =
        .ok (renderToks (.vObj []) [.var ["x"]]) ∧
      renderTok (.vObj []) (.var ["x"]) = "") ∧
    interpolateTemplate "\x7b\x7bbroken" (.vObj []) =
      .error ("Template interpolation failed: " ++ parseErrorDetail) :=
  ⟨⟨interpolate_unbound_empty_malformed_errors.1 "\x7b\x7bx\x7d\x7d" (.vObj [])
      [.var ["x"]] (by decide),
    interpolate_unbound_empty_malformed_errors.2.1 (.vObj []) ["x"] (by rfl)⟩,
   interpolate_unbound_empty_malformed_errors.2.2 "\x7b\x7bbroken" (.vObj [])
      (by decide)⟩

/-! ## Interpreter lemmas -/

theorem runSteps_ok_append {oracle : Oracle} :
    ∀ {l1 : List Step} {i : Nat} {ctx : Ctx} {tr1 : List Event} {c : Ctx},
      runSteps oracle l1 i ctx = (tr1, .ok c) → ∀ l2,
      runSteps oracle (l1 ++ l2) i ctx =
        (tr1 ++ (runSteps oracle l2 (i + l1.length) c).1,
          (runSteps oracle l2 (i + l1.length) c).2) := by
  intro l1
  induction l1 with
  | nil =>
    intro i ctx tr1 c h l2
    simp only [runSteps, Prod.mk.injEq] at h
    obtain ⟨h1, h2⟩ := h
    subst h1
    cases h2
    simp
  | cons s rest ih =>
    intro i ctx tr1 c h l2
    simp only [runSteps] at h
    simp only [List.cons_append, runSteps]
    cases hin : interpolateConfig s.config (.vObj ctx) with
    | error m =>
      rw [hin] at h
      simp at h
    | ok cfg =>
      rw [hin] at h
      dsimp only at h ⊢
      cases ht : opAllowlist.contains s.type with
      | false =>
        rw [ht] at h
        simp at h
      | true =>
        rw [ht] at h
        rw [if_pos rfl] at h ⊢
        cases hor : oracle s.type cfg with
        | error m =>
          rw [hor] at h
          simp at h
        | ok r =>
          rw [hor] at h
          dsimp only at h ⊢
          simp only [Prod.mk.injEq] at h
          obtain ⟨h1, h2⟩ := h
          subst h1
          have hrest : runSteps oracle rest (i + 1)
              (match s.outputVar with
                | some x => ctxSet ctx x r
                | none => ctx) =
              ((runSteps oracle rest (i + 1)
                (match s.outputVar with
                  | some x => ctxSet ctx x r
                  | none => ctx)).1, .ok c) := by
            rw [← h2]
          have hs : List.append rest l2 = rest ++ l2 := rfl
          rw [hs, ih hrest l2]
          have harith : i + 1 + rest.length = i + (s :: rest).length := by
            simp only [List.length_cons]
            omega
          rw [harith]
          simp

theorem runSteps_index_bounds {oracle : Oracle} :
    ∀ {l : List Step} {i : Nat} {ctx : Ctx} {ev : Event},
      ev ∈ (runSteps oracle l i ctx).1 → i ≤ ev.index ∧ ev.index < i + l.length := by
  intro l
  induction l with
  | nil =>
    intro i ctx ev h
    simp [runSteps] at h
  | cons s rest ih =>
    intro i ctx ev h
    simp only [runSteps] at h
    cases hin : interpolateConfig s.config (.vObj ctx) with
    | error m =>
      rw [hin] at h
      simp at h
    | ok cfg =>
      rw [hin] at h
      dsimp only at h
      cases ht : opAllowlist.contains s.type with
      | false =>
        rw [ht] at h
        simp at h
      | true =>
        rw [ht] at h
        rw [if_pos rfl] at h
        cases hor : oracle s.type cfg with
        | error m =>
          rw [hor] at h
          simp only [List.mem_singleton] at h
          subst h
          simp only [List.length_cons]
          omega
        | ok r =>
          rw [hor] at h
          dsimp only at h
          rcases List.mem_cons.mp h with heq | htail
          · subst heq
            simp only [List.length_cons]
            omega
          · have := ih htail
            simp only [List.length_cons]
            omega

/-! ## Claim theorems: interpreter -/

/-- C8: when a step succeeds with `outputVar = x`, the rest of the run
proceeds with the context extended by the binding of `x` to the step's
result — so every later step's config is interpolated against the updated
context — and looking up `x` in that context yields the new result, whatever
binding `x` had before (last write wins). -/
theorem outputVar_binds_and_threads (oracle : Oracle) (s : Step)
    (rest : List Step) (i : Nat) (ctx : Ctx) (x : String) (cfg r : Value)
    (hvar : s.outputVar = some x)
    (hinterp : interpolateConfig s.config (.vObj ctx) = .ok cfg)
    (hallow : opAllowlist.contains s.type = true)
    (hok : oracle s.type cfg = .ok r) :
    runSteps oracle (s :: rest) i ctx =
      (⟨i, s.type, cfg⟩ :: (runSteps oracle rest (i + 1) (ctxSet ctx x r)).1,
        (runSteps oracle rest (i + 1) (ctxSet ctx x r)).2) ∧
    ctxGet (ctxSet ctx x r) x = some r := by
  constructor
  · simp only [runSteps, hinterp, hallow, hok, hvar, if_true]
  · simp [ctxGet, ctxSet, List.find?]

/-- C8 witness: a two-step run where step one writes `x` and step two reads
`\x7b\x7bx\x7d\x7d`: the second step's dispatched config carries step one's
result, and `x` resolves to that result even though `x` was already bound
before the step. -/
theorem outputVar_binds_and_threads_witness :
    (runSteps (fun _ _ => .ok (.vStr "fresh"))
        [⟨"shell", .vObj [("command", .vStr "ls")], some "x"⟩,
         ⟨"transform", .vObj [("template", .vStr "\x7b\x7bx\x7d\x7d")], none⟩]
        0 [("x", .vStr "stale")] =
      (⟨0, "shell", .vObj [("command", .vStr "ls")]⟩ ::
        (runSteps (fun _ _ => .ok (.vStr "fresh"))
          [⟨"transform", .vObj [("template", .vStr "\x7b\x7bx\x7d\x7d")], none⟩]
          1 (ctxSet [("x", .vStr "stale")] "x" (.vStr "fresh"))).1,
        (runSteps (fun _ _ => .ok (.vStr "fresh"))
          [⟨"transform", .vObj [("template", .vStr "\x7b\x7bx\x7d\x7d")], none⟩]
          1 (ctxSet [("x", .vStr "stale")] "x" (.vStr "fresh"))).2) ∧
      ctxGet (ctxSet [("x", .vStr "stale")] "x" (.vStr "fresh")) "x" =
        some (.vStr "fresh")) ∧
    (runSteps (fun _ _ => .ok (.vStr "fresh"))
        [⟨"shell", .vObj [("command", .vStr "ls")], some "x"⟩,
         ⟨"transform", .vObj [("template", .vStr "\x7b\x7bx\x7d\x7d")], none⟩]
        0 [("x", .vStr "stale")]).1.map (fun ev => (ev.index, ev.type, ev.config)) =
      [(0, "shell", .vObj [("command", .vStr "ls")]),
       (1, "transform", .vObj [("template", .vStr "fresh")])] :=
  ⟨outputVar_binds_and_threads (fun _ _ => .ok (.vStr "fresh"))
      ⟨"shell", .vObj [("command", .vStr "ls")], some "x"⟩
      [⟨"transform", .vObj [("template", .vStr "\x7b\x7bx\x7d\x7d")], none⟩]
      0 [("x", .vStr "stale")] "x" (.vObj [("command", .vStr "ls")])
      (.vStr "fresh") rfl rfl (by decide) rfl,
   rfl⟩

/-- C5: when the run reaches step `i` (every earlier step succeeded), step
`i`'s config interpolates, its type is allowlisted, and the dispatched
handler fails with message `m`, the whole run returns the InterpreterError
that names the failing step (one-based index `i + 1`), its type, and the
handler's underlying message — and no step with index greater than `i` is
ever dispatched. -/
theorem run_aborts_on_handler_failure (oracle : Oracle) (spec : CommandSpecM)
    (formValues env : List (String × Value)) (supportPath assetsPath : String)
    (i : Nat) (hlen : i < spec.steps.length)
    (tr0 : List Event) (ctxI : Ctx) (cfg : Value) (m : String)
    (hpre : runSteps oracle (spec.steps.take i) 0
        (initCtx env formValues supportPath assetsPath) = (tr0, .ok ctxI))
    (hinterp : interpolateConfig (spec.steps[i]).config (.vObj ctxI) = .ok cfg)
    (hallow : opAllowlist.contains (spec.steps[i]).type = true)
    (hfail : oracle (spec.steps[i]).type cfg = .error m) :
    executeCommandSpec oracle spec formValues env supportPath assetsPath =
      (tr0 ++ [⟨i, (spec.steps[i]).type, cfg⟩],
        .error (wrapMsg i (spec.steps[i]).type m)) ∧
    ∀ ev ∈ (executeCommandSpec oracle spec formValues env supportPath assetsPath).1,
      ev.index ≤ i := by
  have htl : (spec.steps.take i).length = i := by
    simp [List.length_take]
    omega
  have hrun : runSteps oracle spec.steps 0
      (initCtx env formValues supportPath assetsPath) =
      (tr0 ++ [⟨i, (spec.steps[i]).type, cfg⟩],
        .error (wrapMsg i (spec.steps[i]).type m)) := by
    conv_lhs => rw [(List.take_append_drop i spec.steps).symm]
    rw [runSteps_ok_append hpre (spec.steps.drop i), htl, Nat.zero_add,
      List.drop_eq_getElem_cons hlen]
    simp only [runSteps, hinterp]
    rw [hallow, if_pos rfl, hfail]
  have hmain : executeCommandSpec oracle spec formValues env supportPath assetsPath =
      (tr0 ++ [⟨i, (spec.steps[i]).type, cfg⟩],
        .error (wrapMsg i (spec.steps[i]).type m)) := by
    unfold executeCommandSpec
    rw [hrun]
  refine ⟨hmain, ?_⟩
  intro ev hev
  rw [hmain] at hev
  simp only [List.mem_append, List.mem_singleton] at hev
  rcases hev with hev | hev
  · have hb : ev ∈ (runSteps oracle (spec.steps.take i) 0
        (initCtx env formValues supportPath assetsPath)).1 := by
      rw [hpre]
      exact hev
    have := runSteps_index_bounds hb
    omega
  · subst hev
    exact Nat.le_refl i

/-- C5 witness: a three-step run whose second handler fails: the run
returns the error naming step two and the message, the failing step and its
predecessor are the only dispatches, and the third step never runs. -/
theorem run_aborts_on_handler_failure_witness :
    executeCommandSpec
        (fun t _ => if t = "httpRequest" then .error "boom" else .ok (.vStr "done"))
        ⟨[⟨"shell", .vObj [("command", .vStr "ls")], none⟩,
          ⟨"httpRequest", .vObj [("url", .vStr "https://x")], none⟩,
          ⟨"shell", .vObj [("command", .vStr "later")], none⟩], .vNull, none⟩
        [] [] "/s" "/a" =
      ([⟨0, "shell", .vObj [("command", .vStr "ls")]⟩] ++
        [⟨1, "httpRequest", .vObj [("url", .vStr "https://x")]⟩],
        .error (wrapMsg 1 "httpRequest" "boom")) ∧
    ∀ ev ∈ (executeCommandSpec
        (fun t _ => if t = "httpRequest" then .error "boom" else .ok (.vStr "done"))
        ⟨[⟨"shell", .vObj [("command", .vStr "ls")], none⟩,
          ⟨"httpRequest", .vObj [("url", .vStr "https://x")], none⟩,
          ⟨"shell", .vObj [("command", .vStr "later")], none⟩], .vNull, none⟩
        [] [] "/s" "/a").1, ev.index ≤ 1 :=
  run_aborts_on_handler_failure
    (fun t _ => if t = "httpRequest" then .error "boom" else .ok (.vStr "done"))
    ⟨[⟨"shell", .vObj [("command", .vStr "ls")], none⟩,
      ⟨"httpRequest", .vObj [("url", .vStr "https://x")], none⟩,
      ⟨"shell", .vObj [("command", .vStr "later")], none⟩], .vNull, none⟩
    [] [] "/s" "/a" 1 (by decide)
    [⟨0, "shell", .vObj [("command", .vStr "ls")]⟩]
    [("env", .vObj []), ("input", .vObj []),
      ("supportPath", .vStr "/s"), ("assetsPath", .vStr "/a")]
    (.vObj [("url", .vStr "https://x")]) "boom" rfl rfl rfl rfl

/-- C6: when the run reaches step `i` whose type is outside the operation
allowlist (and whose config interpolates), the run fails with the
InterpreterError wrapping the unknown-operation message, naming the step
(one-based index `i + 1`) and the offending type, and neither step `i` nor
any later step is ever dispatched. -/
theorem run_fatal_on_unknown_type (oracle : Oracle) (spec : CommandSpecM)
    (formValues env : List (String × Value)) (supportPath assetsPath : String)
    (i : Nat) (hlen : i < spec.steps.length)
    (tr0 : List Event) (ctxI : Ctx) (cfg : Value)
    (hpre : runSteps oracle (spec.steps.take i) 0
        (initCtx env formValues supportPath assetsPath) = (tr0, .ok ctxI))
    (hinterp : interpolateConfig (spec.steps[i]).config (.vObj ctxI) = .ok cfg)
    (hunk : opAllowlist.contains (spec.steps[i]).type = false) :
    executeCommandSpec oracle spec formValues env supportPath assetsPath =
      (tr0, .error (wrapMsg i (spec.steps[i]).type
        ("Unknown operation type: " ++ (spec.steps[i]).type))) ∧
    ∀ ev ∈ (executeCommandSpec oracle spec formValues env supportPath assetsPath).1,
      ev.index < i := by
  have htl : (spec.steps.take i).length = i := by
    simp [List.length_take]
    omega
  have hrun : runSteps oracle spec.steps 0
      (initCtx env formValues supportPath assetsPath) =
      (tr0 ++ [], .error (wrapMsg i (spec.steps[i]).type
        ("Unknown operation type: " ++ (spec.steps[i]).type))) := by
    conv_lhs => rw [(List.take_append_drop i spec.steps).symm]
    rw [runSteps_ok_append hpre (spec.steps.drop i), htl, Nat.zero_add,
      List.drop_eq_getElem_cons hlen]
    simp only [runSteps, hinterp]
    rw [hunk]
    simp
  have hmain : executeCommandSpec oracle spec formValues env supportPath assetsPath =
      (tr0, .error (wrapMsg i (spec.steps[i]).type
        ("Unknown operation type: " ++ (spec.steps[i]).type))) := by
    unfold executeCommandSpec
    rw [hrun]
    simp
  refine ⟨hmain, ?_⟩
  intro ev hev
  rw [hmain] at hev
  have hb : ev ∈ (runSteps oracle (spec.steps.take i) 0
      (initCtx env formValues supportPath assetsPath)).1 := by
    rw [hpre]
    exact hev
  have := runSteps_index_bounds hb
  omega

/-- C6 witness: a run whose second step has type `doesNotExist`: the run
fails with the unknown-operation InterpreterError naming step two, only the
first step was dispatched, and the third step never runs. -/
theorem run_fatal_on_unknown_type_witness :
    executeCommandSpec (fun _ _ => .ok (.vStr "done"))
        ⟨[⟨"shell", .vObj [("command", .vStr "ls")], none⟩,
          ⟨"doesNotExist", .vObj [], none⟩,
          ⟨"shell", .vObj [("command", .vStr "later")], none⟩], .vNull, none⟩
        [] [] "/s" "/a" =
      ([⟨0, "shell", .vObj [("command", .vStr "ls")]⟩],
        .error (wrapMsg 1 "doesNotExist"
          ("Unknown operation type: " ++ "doesNotExist"))) ∧
    ∀ ev ∈ (executeCommandSpec (fun _ _ => .ok (.vStr "done"))
        ⟨[⟨"shell", .vObj [("command", .vStr "ls")], none⟩,
          ⟨"doesNotExist", .vObj [], none⟩,
          ⟨"shell", .vObj [("command", .vStr "later")], none⟩], .vNull, none⟩
        [] [] "/s" "/a").1, ev.index < 1 :=
  run_fatal_on_unknown_type (fun _ _ => .ok (.vStr "done"))
    ⟨[⟨"shell", .vObj [("command", .vStr "ls")], none⟩,
      ⟨"doesNotExist", .vObj [], none⟩,
      ⟨"shell", .vObj [("command", .vStr "later")], none⟩], .vNull, none⟩
    [] [] "/s" "/a" 1 (by decide)
    [⟨0, "shell", .vObj [("command", .vStr "ls")]⟩]
    [("env", .vObj []), ("input", .vObj []),
      ("supportPath", .vStr "/s"), ("assetsPath", .vStr "/a")]
    (.vObj []) rfl rfl rfl

/-! ## Claim theorems: config interpolation shape -/

mutual

theorem interp_shape : ∀ (context v w : Value),
    interpolateValue context v = .ok w → InterpShape context v w
  | context, .vNull, w, h => by
    simp only [interpolateValue, Except.ok.injEq] at h
    exact h ▸ InterpShape.nullv
  | context, .vBool b, w, h => by
    simp only [interpolateValue, Except.ok.injEq] at h
    exact h ▸ InterpShape.boolv b
  | context, .vNum n, w, h => by
    simp only [interpolateValue, Except.ok.injEq] at h
    exact h ▸ InterpShape.numv n
  | context, .vStr s, w, h => by
    simp only [interpolateValue] at h
    cases hp : parseTemplate s with
    | none => rw [hp] at h; simp at h
    | some toks =>
      rw [hp] at h
      simp only [Except.ok.injEq] at h
      exact h ▸ InterpShape.str hp
  | context, .vArr l, w, h => by
    simp only [interpolateValue] at h
    cases hl : interpolateList context l with
    | error e => rw [hl] at h; simp at h
    | ok l2 =>
      rw [hl] at h
      simp only [Except.ok.injEq] at h
      exact h ▸ InterpShape.arr (interp_shape_list context l l2 hl)
  | context, .vObj fs, w, h => by
    simp only [interpolateValue] at h
    cases hf : interpolateFields context fs with
    | error e => rw [hf] at h; simp at h
    | ok fs2 =>
      rw [hf] at h
      simp only [Except.ok.injEq] at h
      exact h ▸ InterpShape.obj (interp_shape_fields context fs fs2 hf).1
        (interp_shape_fields context fs fs2 hf).2

theorem interp_shape_list : ∀ (context : Value) (l l2 : List Value),
    interpolateList context l = .ok l2 → List.Forall₂ (InterpShape context) l l2
  | context, [], l2, h => by
    simp only [interpolateList, Except.ok.injEq] at h
    exact h ▸ List.Forall₂.nil
  | context, v :: rest, l2, h => by
    simp only [interpolateList] at h
    cases hv : interpolateValue context v with
    | error e => rw [hv] at h; simp at h
    | ok w =>
      rw [hv] at h
      cases hr : interpolateList context rest with
      | error e => rw [hr] at h; simp at h
      | ok ws =>
        rw [hr] at h
        simp only [Except.ok.injEq] at h
        exact h ▸ List.Forall₂.cons (interp_shape context v w hv)
          (interp_shape_list context rest ws hr)

theorem interp_shape_fields : ∀ (context : Value)
    (fs fs2 : List (String × Value)),
    interpolateFields context fs = .ok fs2 →
    fs.map Prod.fst = fs2.map Prod.fst ∧
      List.Forall₂ (InterpShape context) (fs.map Prod.snd) (fs2.map Prod.snd)
  | context, [], fs2, h => by
    simp only [interpolateFields, Except.ok.injEq] at h
    exact h ▸ ⟨rfl, List.Forall₂.nil⟩
  | context, (k, v) :: rest, fs2, h => by
    simp only [interpolateFields] at h
    cases hv : interpolateValue context v with
    | error e => rw [hv] at h; simp at h
    | ok w =>
      rw [hv] at h
      cases hr : interpolateFields context rest with
      | error e => rw [hr] at h; simp at h
      | ok ws =>
        rw [hr] at h
        simp only [Except.ok.injEq] at h
        have ihp := interp_shape_fields context rest ws hr
        refine h ▸ ⟨?_, ?_⟩
        · simp only [List.map_cons]
          rw [ihp.1]
        · simp only [List.map_cons]
          exact List.Forall₂.cons (interp_shape context v w hv) ihp.2

end

/-- C10: a successful config interpolation replaces every string leaf with
the string output of template expansion — a placeholder bound to a
non-string value contributes that value's string rendering, never the
structured value itself — while non-string leaves and the shape of arrays
and objects (including keys) are preserved. -/
theorem interpolateConfig_shape (config context w : Value)
    (h : interpolateConfig config context = .ok w) : InterpShape context config w :=
  interp_shape context config w h

/-- C10 witness: interpolating a config whose template references an object
value substitutes the string rendering `[object Object]` in place while the
numeric sibling leaf and the object shape are untouched. -/
theorem interpolateConfig_shape_witness :
    interpolateConfig
        (.vObj [("a", .vStr "\x7b\x7bo\x7d\x7d"), ("n", .vNum 3)])
        (.vObj [("o", .vObj [("k", .vNum 1)])]) =
      .ok (.vObj [("a", .vStr "[object Object]"), ("n", .vNum 3)]) ∧
    InterpShape (.vObj [("o", .vObj [("k", .vNum 1)])])
      (.vObj [("a", .vStr "\x7b\x7bo\x7d\x7d"), ("n", .vNum 3)])
      (.vObj [("a", .vStr "[object Object]"), ("n", .vNum 3)]) :=
  ⟨rfl, interpolateConfig_shape
    (.vObj [("a", .vStr "\x7b\x7bo\x7d\x7d"), ("n", .vNum 3)])
    (.vObj [("o", .vObj [("k", .vNum 1)])])
    (.vObj [("a", .vStr "[object Object]"), ("n", .vNum 3)]) rfl⟩

/-! ## Claim theorems: validator -/

theorem validateHttpRequestConfig_ok (config : Value) (index : Nat) :
    validateHttpRequestConfig config index = .ok () ↔
      (checkTruthyString (config.getField "url") &&
        checkStringIn (config.getField "method")
          ["GET", "POST", "PUT", "DELETE", "PATCH"]) = true := by
  unfold validateHttpRequestConfig
  cases h1 : checkTruthyString (config.getField "url") with
  | false => simp [h1]
  | true =>
    cases h2 : checkStringIn (config.getField "method")
        ["GET", "POST", "PUT", "DELETE", "PATCH"] with
    | false => simp [h1, h2]
    | true => simp [h1, h2]

theorem validateShellConfig_ok (config : Value) (index : Nat) :
    validateShellConfig config index = .ok () ↔
      checkTruthyString (config.getField "command") = true := by
  unfold validateShellConfig
  cases h1 : checkTruthyString (config.getField "command") with
  | false => simp [h1]
  | true => simp [h1]

theorem validateTransformConfig_ok (config : Value) (index : Nat) :
    validateTransformConfig config index = .ok () ↔
      checkTruthyString (config.getField "template") = true := by
  unfold validateTransformConfig
  cases h1 : checkTruthyString (config.getField "template") with
  | false => simp [h1]
  | true => simp [h1]

theorem validateFileConfig_fileRead_ok (config : Value) (index : Nat) :
    validateFileConfig config index "fileRead" = .ok () ↔
      checkTruthyString (config.getField "path") = true := by
  unfold validateFileConfig
  cases h1 : checkTruthyString (config.getField "path") with
  | false => simp [h1]
  | true => simp [h1]

theorem validateFileConfig_fileWrite_ok (config : Value) (index : Nat) :
    validateFileConfig config index "fileWrite" = .ok () ↔
      (checkTruthyString (config.getField "path") &&
        (config.getField "content").isSome) = true := by
  unfold validateFileConfig
  cases h1 : checkTruthyString (config.getField "path") with
  | false => simp [h1]
  | true =>
    cases hc : config.getField "content" with
    | none => simp [h1, hc]
    | some v => simp [h1, hc]

theorem validateClipboardConfig_ok (config : Value) (index : Nat) :
    validateClipboardConfig config index = .ok () ↔
      checkStringIn (config.getField "action") ["copy", "read"] = true := by
  unfold validateClipboardConfig
  cases h1 : checkStringIn (config.getField "action") ["copy", "read"] with
  | false => simp [h1]
  | true => simp [h1]

theorem validateOpenConfig_ok (config : Value) (index : Nat) :
    validateOpenConfig config index = .ok () ↔
      checkTruthyString (config.getField "target") = true := by
  unfold validateOpenConfig
  cases h1 : checkTruthyString (config.getField "target") with
  | false => simp [h1]
  | true => simp [h1]

theorem validateToastConfig_ok (config : Value) (index : Nat) :
    validateToastConfig config index = .ok () ↔
      (checkTruthyString (config.getField "title") && !styleBad config) = true := by
  unfold validateToastConfig
  cases h1 : checkTruthyString (config.getField "title") with
  | false => simp [h1]
  | true =>
    cases h2 : styleBad config with
    | false => simp [h1, h2]
    | true => simp [h1, h2]

theorem validateHUDConfig_ok (config : Value) (index : Nat) :
    validateHUDConfig config index = .ok () ↔
      checkTruthyString (config.getField "title") = true := by
  unfold validateHUDConfig
  cases h1 : checkTruthyString (config.getField "title") with
  | false => simp [h1]
  | true => simp [h1]

theorem validateConfigFor_ok (t : String) (config : Value) (index : Nat) :
    validateConfigFor t config index = .ok () ↔ requiredConfigOk t config = true := by
  by_cases h1 : t = "httpRequest"
  · subst h1
    simp [validateConfigFor, requiredConfigOk, validateHttpRequestConfig_ok]
  by_cases h2 : t = "shell"
  · subst h2
    simp [validateConfigFor, requiredConfigOk, validateShellConfig_ok]
  by_cases h3 : t = "transform"
  · subst h3
    simp [validateConfigFor, requiredConfigOk, validateTransformConfig_ok]
  by_cases h4 : t = "fileRead"
  · subst h4
    simp [validateConfigFor, requiredConfigOk, validateFileConfig_fileRead_ok]
  by_cases h5 : t = "fileWrite"
  · subst h5
    simp [validateConfigFor, requiredConfigOk, validateFileConfig_fileWrite_ok]
  by_cases h6 : t = "clipboard"
  · subst h6
    simp [validateConfigFor, requiredConfigOk, validateClipboardConfig_ok]
  by_cases h7 : t = "open"
  · subst h7
    simp [validateConfigFor, requiredConfigOk, validateOpenConfig_ok]
  by_cases h8 : t = "showToast"
  · subst h8
    simp [validateConfigFor, requiredConfigOk, validateToastConfig_ok]
  by_cases h9 : t = "showHUD"
  · subst h9
    simp [validateConfigFor, requiredConfigOk, validateHUDConfig_ok]
  simp [validateConfigFor, requiredConfigOk, h1, h2, h3, h4, h5, h6, h7, h8, h9]

theorem validateOperation_ok (op : Value) (index : Nat) :
    validateOperation op index = .ok () ↔ stepWellFormed op = true := by
  simp only [validateOperation, stepWellFormed]
  cases hshape : (op.truthy && op.isObjectType) with
  | false => simp [hshape]
  | true =>
    cases hin : checkStringIn (op.getField "type") validTypes with
    | false => simp [hshape, hin]
    | true =>
      cases hty : op.getField "type" with
      | none => rw [hty] at hin; simp [checkStringIn] at hin
      | some tv =>
        cases tv with
        | vStr t =>
          cases hcfg : op.getField "config" with
          | none => simp [hshape, hin, hty, hcfg]
          | some cfg =>
            cases hcs : (cfg.truthy && cfg.isObjectType) with
            | false => simp [hshape, hin, hty, hcfg, hcs]
            | true =>
              simp [hshape, hin, hty, hcfg, hcs, validateConfigFor_ok t cfg index]
        | vNull => rw [hty] at hin; simp [checkStringIn] at hin
        | vBool b => rw [hty] at hin; simp [checkStringIn] at hin
        | vNum n => rw [hty] at hin; simp [checkStringIn] at hin
        | vArr l => rw [hty] at hin; simp [checkStringIn] at hin
        | vObj fs => rw [hty] at hin; simp [checkStringIn] at hin

theorem validateOperations_ok : ∀ (l : List Value) (i : Nat),
    validateOperations l i = .ok () ↔ l.all stepWellFormed = true := by
  intro l
  induction l with
  | nil => intro i; simp [validateOperations]
  | cons op rest ih =>
    intro i
    simp only [validateOperations, List.all_cons]
    cases hv : validateOperation op i with
    | error e =>
      have hw := validateOperation_ok op i
      rw [hv] at hw
      simp at hw
      simp [hw]
    | ok u =>
      cases u
      have hw := (validateOperation_ok op i).mp hv
      simp [hw, ih]



/-- C7: the validator fails closed and never defaults: it accepts exactly
the structurally well-formed candidates (an object with nonempty
id/title/description strings, a closed-enum mode, an array of steps each
carrying an allowlisted type, a config object with its type's required
keys, and valid ui and metadata blocks), and on every malformed candidate
it returns a ValidationError message instead of a CommandSpec. -/
theorem validator_fails_closed (spec : Value) :
    (validateCommandSpec spec = .ok () ↔ specWellFormed spec = true) ∧
    (specWellFormed spec = false → ∃ e, validateCommandSpec spec = .error e) := by
  have hiff : validateCommandSpec spec = .ok () ↔ specWellFormed spec = true := by
    simp only [validateCommandSpec, specWellFormed]
    cases h1 : (spec.truthy && spec.isObjectType) with
    | false => simp [h1]
    | true =>
    cases h2 : checkTruthyString (spec.getField "id") with
    | false => simp [h1, h2]
    | true =>
    cases h3 : checkTruthyString (spec.getField "title") with
    | false => simp [h1, h2, h3]
    | true =>
    cases h4 : checkTruthyString (spec.getField "description") with
    | false => simp [h1, h2, h3, h4]
    | true =>
    cases h5 : checkStringIn (spec.getField "mode")
        ["list", "form", "detail", "view"] with
    | false => simp [h1, h2, h3, h4, h5]
    | true =>
    cases hsteps : spec.getField "steps" with
    | none => simp [h1, h2, h3, h4, h5, hsteps]
    | some sv =>
    cases sv with
    | vNull => simp [h1, h2, h3, h4, h5, hsteps]
    | vBool b => simp [h1, h2, h3, h4, h5, hsteps]
    | vNum n => simp [h1, h2, h3, h4, h5, hsteps]
    | vStr s => simp [h1, h2, h3, h4, h5, hsteps]
    | vObj fs => simp [h1, h2, h3, h4, h5, hsteps]
    | vArr steps =>
    cases hops : validateOperations steps 0 with
    | error e =>
      have hall := validateOperations_ok steps 0
      rw [hops] at hall
      simp at hall
      simp [h1, h2, h3, h4, h5, hsteps, hops, hall]
    | ok u =>
    cases u
    have hall := (validateOperations_ok steps 0).mp hops
    cases hui : spec.getField "ui" with
    | none => simp [h1, h2, h3, h4, h5, hsteps, hops, hall, hui]
    | some ui =>
    cases h6 : (ui.truthy && ui.isObjectType) with
    | false => simp [h1, h2, h3, h4, h5, hsteps, hops, hall, hui, h6]
    | true =>
    cases h7 : checkStringIn (ui.getField "mode") ["list", "form", "detail"] with
    | false => simp [h1, h2, h3, h4, h5, hsteps, hops, hall, hui, h6, h7]
    | true =>
    cases h8 : checkTruthyString (ui.getField "dataSource") with
    | false => simp [h1, h2, h3, h4, h5, hsteps, hops, hall, hui, h6, h7, h8]
    | true =>
    cases hmd : spec.getField "metadata" with
    | none => simp [h1, h2, h3, h4, h5, hsteps, hops, hall, hui, h6, h7, h8, hmd]
    | some md =>
    cases h9 : (md.truthy && md.isObjectType) with
    | false =>
      simp [h1, h2, h3, h4, h5, hsteps, hops, hall, hui, h6, h7, h8, hmd, h9]
    | true =>
    cases h10 : checkTruthyString (md.getField "created") with
    | false =>
      simp [h1, h2, h3, h4, h5, hsteps, hops, hall, hui, h6, h7, h8, hmd, h9, h10]
    | true =>
    cases h11 : checkTruthyString (md.getField "modified") with
    | false =>
      simp [h1, h2, h3, h4, h5, hsteps, hops, hall, hui, h6, h7, h8, hmd, h9,
        h10, h11]
    | true =>
    cases htags : md.getField "tags" with
    | none =>
      simp [h1, h2, h3, h4, h5, hsteps, hops, hall, hui, h6, h7, h8, hmd, h9,
        h10, h11, htags]
    | some tv =>
      cases tv <;>
        simp [h1, h2, h3, h4, h5, hsteps, hops, hall, hui, h6, h7, h8, hmd, h9,
          h10, h11, htags]
  refine ⟨hiff, ?_⟩
  intro hbad
  cases hres : validateCommandSpec spec with
  | ok u =>
    cases u
    exact absurd (hiff.mp hres) (by simp [hbad])
  | error e => exact ⟨e, rfl⟩

/-- C7 witness: a candidate missing its title is rejected with the message
naming the field; the fully well-formed sample validates. -/
theorem validator_fails_closed_witness :
    validateCommandSpec (.vObj [("id", .vStr "x")]) =
      .error "CommandSpec.title must be a string" ∧
    (∃ e, validateCommandSpec (.vObj [("id", .vStr "x")]) = .error e) ∧
    validateCommandSpec
      (.vObj [("id", .vStr "g"), ("title", .vStr "T"),
        ("description", .vStr "D"), ("mode", .vStr "list"),
        ("steps", .vArr [.vObj [("type", .vStr "shell"),
          ("config", .vObj [("command", .vStr "ls")])]]),
        ("ui", .vObj [("mode", .vStr "list"), ("dataSource", .vStr "x")]),
        ("metadata", .vObj [("created", .vStr "2024-01-01"),
          ("modified", .vStr "2024-01-01"), ("tags", .vArr [])])]) = .ok () :=
  ⟨rfl,
   (validator_fails_closed (.vObj [("id", .vStr "x")])).2 (by decide),
   (validator_fails_closed
      (.vObj [("id", .vStr "g"), ("title", .vStr "T"),
        ("description", .vStr "D"), ("mode", .vStr "list"),
        ("steps", .vArr [.vObj [("type", .vStr "shell"),
          ("config", .vObj [("command", .vStr "ls")])]]),
        ("ui", .vObj [("mode", .vStr "list"), ("dataSource", .vStr "x")]),
        ("metadata", .vObj [("created", .vStr "2024-01-01"),
          ("modified", .vStr "2024-01-01"), ("tags", .vArr [])])])).1.mpr
      (by decide)⟩

end CmdGen
